import Mathlib

/-!
Verification model of `lib/utils/xpack.js` from the xpm package manager:
the `Xpack.downloadBinaries` binary-acquisition pipeline, the
`Xpack.cacheArchive` streaming download, and the `ManifestId` descriptor
parser.  JavaScript strings are modelled as `String` (or `List Char` where
list induction is needed), JavaScript truthiness of string-valued fields as
"present and non-empty", and external effects (logging warnings, network
access, filesystem removal, archive extraction) as an explicit effect trace.
-/

namespace Xpm

/-! ## JavaScript string primitives -/

/-- Model of JavaScript `String.prototype.split` with a single-character
separator and no limit: splits on every occurrence of the separator;
`"".split(c)` yields `[""]`. -/
def jsSplit (c : Char) : List Char → List (List Char)
  | [] => [[]]
  | x :: xs =>
    if x = c then [] :: jsSplit c xs
    else
      match jsSplit c xs with
      | [] => [[x]]
      | y :: ys => (x :: y) :: ys

theorem jsSplit_ne_nil (c : Char) (xs : List Char) : jsSplit c xs ≠ [] := by
  induction xs with
  | nil => simp [jsSplit]
  | cons x xs ih =>
    simp only [jsSplit]
    split
    · simp
    · cases h : jsSplit c xs with
      | nil => simp
      | cons y ys => simp

/-- Splitting a separator-free string yields the single-element list. -/
theorem jsSplit_eq_single {c : Char} {xs : List Char} (h : c ∉ xs) :
    jsSplit c xs = [xs] := by
  induction xs with
  | nil => rfl
  | cons x xs ih =>
    simp only [List.mem_cons, not_or] at h
    simp only [jsSplit]
    rw [if_neg (by exact fun hx => h.1 hx.symm)]
    rw [ih h.2]

/-- Splitting at the first separator occurrence peels off the prefix. -/
theorem jsSplit_append {c : Char} {a : List Char} (b : List Char)
    (h : c ∉ a) : jsSplit c (a ++ c :: b) = a :: jsSplit c b := by
  induction a with
  | nil => simp [jsSplit]
  | cons x xs ih =>
    simp only [List.mem_cons, not_or] at h
    simp only [List.cons_append, jsSplit]
    rw [if_neg (by exact fun hx => h.1 hx.symm)]
    simp only [List.append_eq]
    rw [ih h.2]

/-! ## ManifestId -/

/-- Parsed form of a dependency descriptor: optional scope (with its leading
`@`), package name, and version. -/
structure ManifestId where
  scope : Option (List Char)
  name : List Char
  version : List Char
deriving DecidableEq, Repr

/-- The `version = arr2[1] || manifest.version` step: an absent or empty
second split segment falls back to the manifest's own version. -/
def versionOr (seg : Option (List Char)) (fallback : List Char) : List Char :=
  match seg with
  | some v => if v = [] then fallback else v
  | none => fallback

/-- Model of the `ManifestId` constructor.  `id.split('/')` / `split('@')`
split on every separator and the code indexes segments 0 and 1; accessing
`arr[1]` when the scoped split produced a single segment is the JavaScript
`TypeError` on `undefined.split`, modelled as `none`. -/
def ManifestId.ofId (id : List Char) (fallback : List Char) :
    Option ManifestId :=
  if id.head? = some '@' then
    match jsSplit '/' id with
    | [] => none
    | [_] => none
    | a0 :: a1 :: _ =>
      match jsSplit '@' a1 with
      | [] => none
      | [n] => some ⟨some a0, n, versionOr none fallback⟩
      | n :: v :: _ => some ⟨some a0, n, versionOr (some v) fallback⟩
  else
    match jsSplit '@' id with
    | [] => none
    | [n] => some ⟨none, n, versionOr none fallback⟩
    | n :: v :: _ => some ⟨none, n, versionOr (some v) fallback⟩

/-- Model of `ManifestId.getFullName`. -/
def ManifestId.getFullName (m : ManifestId) : List Char :=
  match m.scope with
  | some s => s ++ '/' :: (m.name ++ '@' :: m.version)
  | none => m.name ++ '@' :: m.version

/-- Splits on the FIRST occurrence of the separator only, the remainder kept
whole; `none` when the separator does not occur.  Used to state what the
specification's words describe, for comparison with `ManifestId.ofId`. -/
def splitAtFirst (c : Char) : List Char → Option (List Char × List Char)
  | [] => none
  | x :: xs =>
    if x = c then some ([], xs)
    else
      match splitAtFirst c xs with
      | none => none
      | some (a, b) => some (x :: a, b)

/-- Modelled from the spec's words (not from the source): split `id` on the
first `/` into scope and rest, then rest on the first `@` into name and
version, empty or missing version falling back. -/
def manifestIdSpec (id : List Char) (fallback : List Char) :
    Option ManifestId :=
  if id.head? = some '@' then
    match splitAtFirst '/' id with
    | none => none
    | some (scopePart, rest) =>
      match splitAtFirst '@' rest with
      | none => some ⟨some scopePart, rest, fallback⟩
      | some (namePart, versionPart) =>
        some ⟨some scopePart, namePart, versionOr (some versionPart) fallback⟩
  else
    match splitAtFirst '@' id with
    | none => some ⟨none, id, fallback⟩
    | some (namePart, versionPart) =>
      some ⟨none, namePart, versionOr (some versionPart) fallback⟩

/-! ### Shape lemmas for the constructor model -/

theorem ofId_scoped {s n v : List Char} (fb : List Char) (hs : '/' ∉ s)
    (hn1 : '/' ∉ n) (hn2 : '@' ∉ n) (hv1 : '/' ∉ v) (hv2 : '@' ∉ v) :
    ManifestId.ofId ('@' :: s ++ '/' :: (n ++ '@' :: v)) fb
      = some ⟨some ('@' :: s), n, versionOr (some v) fb⟩ := by
  have hrest : '/' ∉ n ++ '@' :: v := by
    simp only [List.mem_append, List.mem_cons, not_or]
    exact ⟨hn1, by decide, hv1⟩
  have hsplit1 : jsSplit '/' ('@' :: s ++ '/' :: (n ++ '@' :: v))
      = ('@' :: s) :: [n ++ '@' :: v] := by
    rw [jsSplit_append (n ++ '@' :: v)
      (by simp only [List.mem_cons, not_or]; exact ⟨by decide, hs⟩)]
    rw [jsSplit_eq_single hrest]
  have hsplit2 : jsSplit '@' (n ++ '@' :: v) = n :: [v] := by
    rw [jsSplit_append v hn2, jsSplit_eq_single hv2]
  rw [ManifestId.ofId, if_pos (by simp)]
  simp only [List.cons_append] at hsplit1 ⊢
  rw [hsplit1]
  simp [hsplit2]

theorem ofId_scoped_nov {s n : List Char} (fb : List Char) (hs : '/' ∉ s)
    (hn1 : '/' ∉ n) (hn2 : '@' ∉ n) :
    ManifestId.ofId ('@' :: s ++ '/' :: n) fb
      = some ⟨some ('@' :: s), n, fb⟩ := by
  have hsplit1 : jsSplit '/' ('@' :: s ++ '/' :: n) = ('@' :: s) :: [n] := by
    rw [jsSplit_append n
      (by simp only [List.mem_cons, not_or]; exact ⟨by decide, hs⟩)]
    rw [jsSplit_eq_single hn1]
  rw [ManifestId.ofId, if_pos (by simp)]
  simp only [List.cons_append] at hsplit1 ⊢
  rw [hsplit1]
  simp [jsSplit_eq_single hn2, versionOr]

theorem ofId_unscoped {n v : List Char} (fb : List Char) (hn0 : n ≠ [])
    (hn2 : '@' ∉ n) (hv2 : '@' ∉ v) :
    ManifestId.ofId (n ++ '@' :: v) fb
      = some ⟨none, n, versionOr (some v) fb⟩ := by
  have hsplit : jsSplit '@' (n ++ '@' :: v) = n :: [v] := by
    rw [jsSplit_append v hn2, jsSplit_eq_single hv2]
  cases n with
  | nil => exact absurd rfl hn0
  | cons c cs =>
    have hc : c ≠ '@' := fun h => hn2 (h ▸ List.mem_cons_self c cs)
    rw [ManifestId.ofId, if_neg (by simpa using hc)]
    simp only [List.cons_append] at hsplit ⊢
    rw [hsplit]

theorem ofId_unscoped_nov {n : List Char} (fb : List Char) (hn0 : n ≠ [])
    (hn2 : '@' ∉ n) :
    ManifestId.ofId n fb = some ⟨none, n, fb⟩ := by
  cases n with
  | nil => exact absurd rfl hn0
  | cons c cs =>
    have hc : c ≠ '@' := fun h => hn2 (h ▸ List.mem_cons_self c cs)
    rw [ManifestId.ofId, if_neg (by simpa using hc)]
    simp [jsSplit_eq_single hn2, versionOr]

/-! ## JavaScript value helpers for the pipeline -/

/-- JavaScript truthiness of an optional string-valued field: `undefined`
and the empty string are falsy. -/
def truthy : Option String → Bool
  | none => false
  | some s => !(s = "")

/-- JavaScript `a || b` for a string-valued `a` with string default `b`. -/
def jsOrD (a : Option String) (b : String) : String :=
  match a with
  | some s => if s = "" then b else s
  | none => b

/-- A JavaScript number as produced by `parseInt`: `NaN` or an integer. -/
inductive JsNum where
  | nan
  | int (n : Int)
deriving DecidableEq, Repr

/-- The whitespace characters skipped by `parseInt` (the common ASCII
subset of the JavaScript WhiteSpace/LineTerminator productions). -/
def isJsSpace (c : Char) : Bool :=
  c = ' ' || c = '\t' || c = '\n' || c = '\r' || c = '\x0b' || c = '\x0c'

/-- Decimal digit value. -/
def digitVal (c : Char) : Option Nat :=
  if '0' ≤ c ∧ c ≤ '9' then some (c.toNat - '0'.toNat) else none

/-- Hexadecimal digit value (both cases). -/
def hexVal (c : Char) : Option Nat :=
  if '0' ≤ c ∧ c ≤ '9' then some (c.toNat - '0'.toNat)
  else if 'a' ≤ c ∧ c ≤ 'f' then some (c.toNat - 'a'.toNat + 10)
  else if 'A' ≤ c ∧ c ≤ 'F' then some (c.toNat - 'A'.toNat + 10)
  else none

/-- Accumulate the longest leading digit run; `none` when no digit at all
was consumed (`parseInt` then yields `NaN`). -/
def takeDigitsVal (f : Char → Option Nat) (base : Nat) :
    List Char → Option Nat → Option Nat
  | [], acc => acc
  | c :: cs, acc =>
    match f c with
    | some d => takeDigitsVal f base cs (some ((acc.getD 0) * base + d))
    | none => acc

/-- Model of one-argument JavaScript `parseInt`: skip leading whitespace,
optional sign, `0x`/`0X` switches to hexadecimal, then the longest digit
run; no digits means `NaN`.  It never throws, so the `try { skip =
parseInt(...) } catch (err) {}` in the source can never take its catch
branch. -/
def parseIntJs (s : String) : JsNum :=
  let cs := s.data.dropWhile isJsSpace
  let signed : Int × List Char :=
    match cs with
    | '-' :: rest => (-1, rest)
    | '+' :: rest => (1, rest)
    | _ => (1, cs)
  let body := signed.2
  match body with
  | '0' :: 'x' :: rest =>
    match takeDigitsVal hexVal 16 rest none with
    | some v => .int (signed.1 * v)
    | none => .nan
  | '0' :: 'X' :: rest =>
    match takeDigitsVal hexVal 16 rest none with
    | some v => .int (signed.1 * v)
    | none => .nan
  | _ =>
    match takeDigitsVal digitVal 10 body none with
    | some v => .int (signed.1 * v)
    | none => .nan

/-- Model of Node's `Buffer.from(hex, 'hex')`: decode hex pairs from the
left, stop (without error) at the first pair containing a non-hex
character, drop a trailing lone nibble.  It never throws. -/
def hexDecodeJs : List Char → List Nat
  | c1 :: c2 :: rest =>
    match hexVal c1, hexVal c2 with
    | some h, some l => (16 * h + l) :: hexDecodeJs rest
    | _, _ => []
  | _ => []

/-- A string is well-formed hex when it has even length and only hex
digits. -/
def wellFormedHex (s : String) : Bool :=
  s.data.length % 2 = 0 && s.data.all (fun c => (hexVal c).isSome)

/-- The base64 alphabet, indexed 0–63. -/
def b64Char (n : Nat) : Char :=
  (("ABCDEFGHIJKLMNOPQRSTUVWXYZabcdefghijklmnopqrstuvwxyz0123456789+/").data.getD n '?')

/-- Standard base64 encoding with padding of a byte list, as produced by
Node's `buff.toString('base64')`. -/
def base64OfBytes : List Nat → List Char
  | b1 :: b2 :: b3 :: rest =>
    b64Char (b1 / 4) :: b64Char ((b1 % 4) * 16 + b2 / 16) ::
    b64Char ((b2 % 16) * 4 + b3 / 64) :: b64Char (b3 % 64) ::
    base64OfBytes rest
  | [b1, b2] =>
    [b64Char (b1 / 4), b64Char ((b1 % 4) * 16 + b2 / 16),
     b64Char ((b2 % 16) * 4), '=']
  | [b1] =>
    [b64Char (b1 / 4), b64Char ((b1 % 4) * 16), '=', '=']
  | [] => []

/-- The integrity-digest construction of `downloadBinaries`:
`Buffer.from(hexSum, 'hex')` then `` `${hashAlgorithm}-${buff.toString('base64')}` ``. -/
def integrityEncode (algorithm : String) (hexSum : String) : String :=
  algorithm ++ "-" ++ ⟨base64OfBytes (hexDecodeJs hexSum.data)⟩

/-! ## Manifest data model

Only the fields `downloadBinaries` reads.  String-typed JSON fields are
`Option String` (`none` = absent); the per-platform `skip` flag is a
boolean. -/

/-- One entry of `xpack.binaries.platforms`. -/
structure PlatformEntry where
  fileName : Option String := none
  baseUrl : Option String := none
  sha256 : Option String := none
  sha512 : Option String := none
  skip : Bool := false
deriving DecidableEq, Repr

/-- The `xpack.binaries` section.  `skip` is kept as the raw field value
(a string, fed to `parseInt`); `platforms` is an association object. -/
structure Binaries where
  baseUrl : Option String := none
  destination : Option String := none
  skip : Option String := none
  platforms : Option (List (String × PlatformEntry)) := none
deriving DecidableEq, Repr

/-- The `xpack` section of a manifest. -/
structure XpackSection where
  binaries : Option Binaries := none
deriving DecidableEq, Repr

/-- A manifest as `downloadBinaries` sees it after `isFolderPackage`. -/
structure Manifest where
  xpack : Option XpackSection := none
deriving DecidableEq, Repr

/-- JavaScript object property lookup on an association object. -/
def jsLookup (ps : List (String × PlatformEntry)) (key : String) :
    Option PlatformEntry :=
  match ps with
  | [] => none
  | (k, v) :: rest => if k = key then some v else jsLookup rest key

/-- Model of POSIX `path.join` for the simple two-segment uses here. -/
def pathJoin (a b : String) : String := a ++ "/" ++ b

/-- Model of JavaScript `s.endsWith(c)` for a one-character suffix: the
last character equals `c`. -/
def endsWithChar (s : String) (c : Char) : Bool := s.data.getLast? = some c

/-! ## Effects and outcomes of the pipeline -/

/-- An externally visible side effect of `downloadBinaries`, in program
order: a user-facing warning, a network download (with the integrity
option passed to the cache store), the recursive removal of the
destination folder, or the archive extraction with its strip depth. -/
inductive Effect where
  | warn (msg : String)
  | networkGet (url : String) (integrity : Option String)
  | rimraf (p : String)
  | extract (archivePath : String) (dest : String) (strip : JsNum)
deriving DecidableEq, Repr

/-- Error classes of `CliExitCodes.ERROR` used by this file of the source. -/
inductive ErrClass where
  | input
deriving DecidableEq, Repr

/-- The `CliError` messages `downloadBinaries` can throw, one constructor
per distinct message format in the source. -/
inductive CliErrMsg where
  | missingBaseUrl
  | missingFileName (platformKey : String)
  | downloadFailed
deriving DecidableEq, Repr

/-- The exact message string of each `CliErrMsg` constructor. -/
def CliErrMsg.render : CliErrMsg → String
  | .missingBaseUrl => "Missing xpack.binaries.baseUrl"
  | .missingFileName key =>
    "Missing xpack.binaries.platform[" ++ key ++ "].fileName"
  | .downloadFailed => "Download failed."

/-- How a `downloadBinaries` call ends: an early `return` (no-op paths),
successful extraction with a file count, or a thrown `CliError`. -/
inductive DBEnd where
  | ret
  | ok (filesExtracted : Nat)
  | err (msg : CliErrMsg) (cls : ErrClass)
deriving DecidableEq, Repr

/-- A completed run: the effect trace and how it ended. -/
structure Run where
  effects : List Effect
  result : DBEnd
deriving DecidableEq, Repr

/-- The environment a `downloadBinaries` call interacts with: the platform
key `` `${process.platform}-${sysArch()}` ``, the two `cacache.get.info`
answers (before and after a download), whether the `cacheArchive` promise
settles successfully, and the file count `decompress` reports. -/
structure Env where
  platformKey : String
  cacheInfoBefore : Option String
  downloadOk : Bool
  cacheInfoAfter : Option String
  extractCount : Nat
deriving DecidableEq, Repr

/-- The warning of the per-platform skip branch. -/
def skipWarnMsg : String :=
  "No binaries are available for this platform, command ignored."

/-- The tail of the pipeline once a cache entry path `ipath` is resolved:
compute the strip depth with `parseInt` (defaulting only via the dead
`try`/`catch` and the falsy-field guard), `rimraf` the destination, then
extract. -/
def extractPhase (contentFolderPath : String) (skipField : Option String)
    (ipath : String) (count : Nat) : Run :=
  let skipNum : JsNum :=
    if truthy skipField then parseIntJs (jsOrD skipField "")
    else .int 0
  ⟨[.rimraf contentFolderPath, .extract ipath contentFolderPath skipNum],
   .ok count⟩

/-- Prepend already-produced effects to a run. -/
def Run.withPre (es : List Effect) (r : Run) : Run :=
  ⟨es ++ r.effects, r.result⟩

/-- Model of `Xpack.downloadBinaries`, mirroring the source's order of
checks exactly: the three "not a binary xPack" guards and the unknown
platform key are silent returns; a falsy `xpack.binaries.baseUrl` throws
the missing-baseUrl `CliError` (before the per-platform `skip` flag is
looked at); `skip` then returns after one warning; a falsy `fileName`
throws the missing-fileName `CliError`; the URL is the entry `baseUrl` or
the common one with a `/` appended when missing; `sha256` is preferred
over `sha512` for the integrity digest; a cache miss downloads (any
rejection of `cacheArchive` becomes the download-failed `CliError`, as
does a still-absent cache entry); finally the destination is removed and
the archive extracted.  `json?` is the result of `isFolderPackage`
(`none` covers both a non-package folder and absent `name`/`version`). -/
def downloadBinaries (packagePath : String) (json? : Option Manifest)
    (env : Env) : Run :=
  match json? with
  | none => ⟨[], .ret⟩
  | some json =>
    match json.xpack with
    | none => ⟨[], .ret⟩
    | some xp =>
      match xp.binaries with
      | none => ⟨[], .ret⟩
      | some b =>
        match b.platforms with
        | none => ⟨[], .ret⟩
        | some platforms =>
          match jsLookup platforms env.platformKey with
          | none => ⟨[], .ret⟩
          | some platform =>
            if truthy b.baseUrl = false then
              ⟨[], .err .missingBaseUrl .input⟩
            else
              let contentFolder := jsOrD b.destination ".content"
              let contentFolderPath := pathJoin packagePath contentFolder
              if platform.skip then
                ⟨[.warn skipWarnMsg], .ret⟩
              else if truthy platform.fileName = false then
                ⟨[], .err (.missingFileName env.platformKey) .input⟩
              else
                let fn := jsOrD platform.fileName ""
                let base := jsOrD platform.baseUrl (jsOrD b.baseUrl "")
                let fileUrl :=
                  (if endsWithChar base '/' then base else base ++ "/") ++ fn
                let integrityDigest : Option String :=
                  if truthy platform.sha256 then
                    some (integrityEncode "sha256" (jsOrD platform.sha256 ""))
                  else if truthy platform.sha512 then
                    some (integrityEncode "sha512" (jsOrD platform.sha512 ""))
                  else none
                match env.cacheInfoBefore with
                | some ipath =>
                  extractPhase contentFolderPath b.skip ipath env.extractCount
                | none =>
                  let preEffects := [Effect.networkGet fileUrl integrityDigest]
                  if env.downloadOk = false then
                    ⟨preEffects, .err .downloadFailed .input⟩
                  else
                    match env.cacheInfoAfter with
                    | none => ⟨preEffects, .err .downloadFailed .input⟩
                    | some ipath =>
                      Run.withPre preEffects
                        (extractPhase contentFolderPath b.skip ipath
                          env.extractCount)

/-! ## cacheArchive as an event race

`Xpack.cacheArchive` returns a promise settled by stream handlers.  Since
`source.pipe(dest)` returns `dest`, every `.on(...)` in the source's chain
— `integrity`, the first `error`, then `close` and the second `error` — is
registered on the cache-write stream (`cacache.put.stream`); the transport
stream (`request.get`) carries no handlers at all.  By promise semantics
the first handler to fire settles the promise; events with no registered
handler settle nothing. -/

/-- An event one of the two streams can emit while `cacheArchive` is
pending. -/
inductive StreamEvent where
  | transportClose
  | transportError
  | cacheIntegrity (digest : String)
  | cacheError
  | cacheClose
deriving DecidableEq, Repr

/-- How a promise settles: resolved with a value (or with `undefined`,
modelled `none`) or rejected. -/
inductive Settlement where
  | resolved (value : Option String)
  | rejected
deriving DecidableEq, Repr

/-- The handler, if any, registered for each event.  On the cache-write
stream: `integrity` resolves with the computed digest; `error` rejects
(the source registers two rejecting `error` handlers on this same stream
— `pipe` returns its destination, so the trailing `.on(...)` calls also
attach to it — and the first to run settles, so one rejection models
both); `close` calls `resolve()`, resolving with `undefined`.  The
transport stream's `close` and `error` events have NO registered handler
and settle nothing — in particular a transport error is not rejected into
the promise (it surfaces as an unhandled stream error instead). -/
def cacheArchiveHandler : StreamEvent → Option Settlement
  | .cacheIntegrity d => some (.resolved (some d))
  | .cacheError => some .rejected
  | .cacheClose => some (.resolved none)
  | .transportClose => none
  | .transportError => none

/-- Settlement of the `cacheArchive` promise over an observed event order:
the first event with a registered handler settles the promise; events
without a handler pass through. -/
def cacheArchiveSettle : List StreamEvent → Option Settlement
  | [] => none
  | e :: rest =>
    match cacheArchiveHandler e with
    | some s => some s
    | none => cacheArchiveSettle rest

/-! ## Helper lemmas and concrete fixtures -/

theorem jsOrD_of_truthy {a : Option String} {s : String} (h : a = some s)
    (hs : s ≠ "") (x : String) : jsOrD a s = s ∧ jsOrD a x = s := by
  subst h
  simp [jsOrD, hs]

theorem jsOrD_of_falsy {a : Option String} (h : truthy a = false)
    (x : String) : jsOrD a x = x := by
  cases a with
  | none => rfl
  | some s =>
    have hs : s = "" := by
      by_contra hs
      simp [truthy, hs] at h
    simp [jsOrD, hs]

theorem truthy_some {s : String} (hs : s ≠ "") :
    truthy (some s) = true := by
  simp [truthy, hs]

/-- The platform key used by the concrete test fixtures. -/
def keyLX : String := "linux-x64"

/-- Environment with an empty cache and a download that would succeed. -/
def envPlain : Env :=
  { platformKey := keyLX, cacheInfoBefore := none, downloadOk := true,
    cacheInfoAfter := none, extractCount := 0 }

/-- Environment where the cache already holds the artifact. -/
def envHit : Env :=
  { platformKey := keyLX, cacheInfoBefore := some "/cache/blob",
    downloadOk := true, cacheInfoAfter := none, extractCount := 5 }

/-- Environment with an empty cache and a failing download (for example a
cache store rejecting the write on an integrity mismatch). -/
def envFail : Env :=
  { platformKey := keyLX, cacheInfoBefore := none, downloadOk := false,
    cacheInfoAfter := none, extractCount := 0 }

/-- Environment with an empty cache, a successful download, and the cache
entry present afterwards. -/
def envMissOk : Env :=
  { platformKey := keyLX, cacheInfoBefore := none, downloadOk := true,
    cacheInfoAfter := some "/cache/blob", extractCount := 3 }

/-- A platform entry carrying only the skip flag. -/
def entrySkipOnly : PlatformEntry := { skip := true }

/-- The `xpack.binaries` section with a skipped platform entry and NO
top-level `baseUrl`. -/
def binsSkipNoBase : Binaries :=
  { platforms := some [(keyLX, entrySkipOnly)] }

/-- Manifest with a skipped platform entry and NO top-level `baseUrl`. -/
def manSkipNoBase : Manifest :=
  { xpack := some { binaries := some binsSkipNoBase } }

/-- The `xpack.binaries` section with a skipped platform entry and a
top-level `baseUrl`. -/
def binsSkipWithBase : Binaries :=
  { baseUrl := some "https://x/",
    platforms := some [(keyLX, entrySkipOnly)] }

/-- Manifest with a skipped platform entry and a top-level `baseUrl`. -/
def manSkipWithBase : Manifest :=
  { xpack := some { binaries := some binsSkipWithBase } }

/-- A platform entry with its own `baseUrl` override and a `fileName`. -/
def entryOverride : PlatformEntry :=
  { fileName := some "x.tar.gz", baseUrl := some "https://example.com" }

/-- The `xpack.binaries` section with only the entry-level `baseUrl`. -/
def binsOverrideOnly : Binaries :=
  { platforms := some [(keyLX, entryOverride)] }

/-- Manifest whose platform entry carries a `baseUrl` override while the
top-level `xpack.binaries.baseUrl` is absent. -/
def manOverrideOnly : Manifest :=
  { xpack := some { binaries := some binsOverrideOnly } }

/-- A platform entry with only a `fileName`. -/
def entryFn : PlatformEntry := { fileName := some "x.tar.gz" }

/-- The `xpack.binaries` section with a non-numeric `skip` field. -/
def binsSkipAbc : Binaries :=
  { baseUrl := some "https://b", skip := some "abc",
    platforms := some [(keyLX, entryFn)] }

/-- Manifest whose `xpack.binaries.skip` is the non-numeric string
`"abc"`. -/
def manSkipAbc : Manifest :=
  { xpack := some { binaries := some binsSkipAbc } }

/-- A platform entry declaring the malformed hex digest `"zz"`. -/
def entryZZ : PlatformEntry :=
  { fileName := some "x.tar.gz", sha256 := some "zz" }

/-- The `xpack.binaries` section holding `entryZZ`. -/
def binsZZ : Binaries :=
  { baseUrl := some "https://b", platforms := some [(keyLX, entryZZ)] }

/-- Manifest declaring the malformed `sha256` hex digest `"zz"`. -/
def manZZ : Manifest :=
  { xpack := some { binaries := some binsZZ } }

/-- A platform entry whose `baseUrl` is present but empty. -/
def entryEmptyBase : PlatformEntry :=
  { fileName := some "x.tar.gz", baseUrl := some "" }

/-- The `xpack.binaries` section holding `entryEmptyBase` and a truthy
top-level `baseUrl`. -/
def binsEmptyBase : Binaries :=
  { baseUrl := some "https://fallback.com/",
    platforms := some [(keyLX, entryEmptyBase)] }

/-- Manifest whose entry-level `baseUrl` is the empty string. -/
def manEmptyBase : Manifest :=
  { xpack := some { binaries := some binsEmptyBase } }

/-- The `xpack.binaries` section with both an entry-level override and a
top-level `baseUrl`, from the claim's own example. -/
def binsEx : Binaries :=
  { baseUrl := some "https://fallback.com/",
    platforms := some [(keyLX, entryOverride)] }

/-- Manifest of the claim's URL-assembly example: entry `baseUrl`
`"https://example.com"` (no trailing slash), top-level
`"https://fallback.com/"`, `fileName` `"x.tar.gz"`. -/
def manEx : Manifest :=
  { xpack := some { binaries := some binsEx } }

/-! ## Claim theorems -/

/-- C1, counterexample: a manifest whose resolved platform entry has
`skip = true` but whose `xpack.binaries.baseUrl` is absent does NOT
complete as a warn-only no-op: the source checks `baseUrl` before the
`skip` flag, so the missing-baseUrl Configuration error is thrown. -/
theorem claim1_counterexample :
    downloadBinaries "/pkg" (some manSkipNoBase) envPlain
      = ⟨[], .err .missingBaseUrl .input⟩ := rfl

/-- C1, amended: with a truthy `xpack.binaries.baseUrl` (whose check comes
first in the source), a resolved entry with `skip = true` short-circuits as
a warn-only no-op for every value of the remaining URL and hash fields:
the run is exactly one warning, no network access, no filesystem effect,
and no error — in particular the missing-fileName error is never raised. -/
theorem claim1_amended (packagePath : String) (m : Manifest) (env : Env)
    (xp : XpackSection) (b : Binaries)
    (ps : List (String × PlatformEntry)) (entry : PlatformEntry)
    (hxp : m.xpack = some xp) (hb : xp.binaries = some b)
    (hps : b.platforms = some ps)
    (hlook : jsLookup ps env.platformKey = some entry)
    (hbase : truthy b.baseUrl = true) (hskip : entry.skip = true) :
    downloadBinaries packagePath (some m) env
      = ⟨[.warn skipWarnMsg], .ret⟩ := by
  simp [downloadBinaries, hxp, hb, hps, hlook, hbase, hskip]

/-- C1, witness: the amended theorem at a concrete manifest whose entry has
`skip = true`, no `fileName` and no hash, with the top-level `baseUrl`
present. -/
theorem claim1_witness :
    downloadBinaries "/pkg" (some manSkipWithBase) envPlain
      = ⟨[.warn skipWarnMsg], .ret⟩ :=
  claim1_amended "/pkg" _ envPlain _ _ _ _ rfl rfl rfl rfl rfl rfl

/-- Transport-stream events settle nothing: any run of transport
`close`/`error` events is transparent to the promise's settlement. -/
theorem settleTransportTransparent (ts rest : List StreamEvent)
    (h : ∀ e ∈ ts, e = .transportClose ∨ e = .transportError) :
    cacheArchiveSettle (ts ++ rest) = cacheArchiveSettle rest := by
  induction ts with
  | nil => rfl
  | cons e es ih =>
    have he := h e (List.mem_cons_self e es)
    have hes : ∀ x ∈ es, x = StreamEvent.transportClose
        ∨ x = StreamEvent.transportError :=
      fun x hx => h x (List.mem_cons_of_mem e hx)
    rcases he with he | he <;> subst he <;>
      simpa [cacheArchiveSettle, cacheArchiveHandler] using ih hes

/-- C2, counterexample: an error signalled on the transport stream does
NOT reject the operation: `pipe` returns its destination, so no handler at
all is registered on the transport stream, and the promise is never
settled by a transport error. -/
theorem claim2_counterexample :
    cacheArchiveSettle [.transportError] = none
    ∧ (none : Option Settlement) ≠ some .rejected := ⟨rfl, by decide⟩

/-- C2, amended: all handlers sit on the cache-write stream, so transport
events are transparent to the settlement: after any run of transport
`close`/`error` events the promise still resolves with the integrity
digest the cache store computed when the cache stream confirms, and still
rejects on a cache-write `error`; a transport-only event sequence never
settles it at all — in particular a transport `close` cannot resolve the
promise early or with a missing digest, but a transport `error` also
cannot reject it (failure on the transport side is NOT terminal for the
promise; it surfaces as an unhandled stream error outside it). -/
theorem claim2_amended (ts rest : List StreamEvent) (d : String)
    (h : ∀ e ∈ ts, e = .transportClose ∨ e = .transportError) :
    cacheArchiveSettle (ts ++ .cacheIntegrity d :: rest)
        = some (.resolved (some d))
    ∧ cacheArchiveSettle (ts ++ .cacheError :: rest) = some .rejected
    ∧ cacheArchiveSettle ts = none := by
  refine ⟨?_, ?_, ?_⟩
  · rw [settleTransportTransparent ts _ h]; rfl
  · rw [settleTransportTransparent ts _ h]; rfl
  · have h0 := settleTransportTransparent ts [] h
    simpa using h0

/-- C2, witness: after a transport `close` and a transport `error`, the
cache stream's `integrity` event still resolves the promise with the
store's digest. -/
theorem claim2_witness :
    cacheArchiveSettle [.transportClose, .transportError,
        .cacheIntegrity "sha256-x"]
      = some (.resolved (some "sha256-x")) := by
  have h := claim2_amended [.transportClose, .transportError] []
    "sha256-x" (by decide)
  exact h.1

/-- C3: when a digest is declared (`sha256` truthy) and the cache misses,
a rejected `cacheArchive` — for example a cache store refusing the write on
an integrity mismatch — or a cache entry still absent after the download
makes `downloadBinaries` fail with the download-failed `CliError` (INPUT
class), and no `rimraf` of the destination folder is ever performed: the
removal is sequenced after a successful cache resolution. -/
theorem claim3_mismatch_leaves_destination (packagePath : String)
    (m : Manifest) (env : Env) (xp : XpackSection) (b : Binaries)
    (ps : List (String × PlatformEntry)) (entry : PlatformEntry)
    (hxp : m.xpack = some xp) (hb : xp.binaries = some b)
    (hps : b.platforms = some ps)
    (hlook : jsLookup ps env.platformKey = some entry)
    (hbase : truthy b.baseUrl = true) (hskip : entry.skip = false)
    (hfn : truthy entry.fileName = true)
    (hsha : truthy entry.sha256 = true)
    (hmiss : env.cacheInfoBefore = none)
    (hfail : env.downloadOk = false ∨ env.cacheInfoAfter = none) :
    (downloadBinaries packagePath (some m) env).result
        = .err .downloadFailed .input
    ∧ ∀ p, Effect.rimraf p
        ∉ (downloadBinaries packagePath (some m) env).effects := by
  rcases hfail with hdl | hafter
  · simp [downloadBinaries, hxp, hb, hps, hlook, hbase, hskip, hfn,
      hmiss, hdl]
  · cases hdl : env.downloadOk with
    | false =>
      simp [downloadBinaries, hxp, hb, hps, hlook, hbase, hskip, hfn,
        hmiss, hdl]
    | true =>
      simp [downloadBinaries, hxp, hb, hps, hlook, hbase, hskip, hfn,
        hmiss, hdl, hafter]

/-- A platform entry declaring a `fileName` and a `sha256` digest. -/
def entrySha : PlatformEntry :=
  { fileName := some "x.tar.gz", sha256 := some "ab" }

/-- The `xpack.binaries` section holding `entrySha` and a `baseUrl`. -/
def binsSha : Binaries :=
  { baseUrl := some "https://b", platforms := some [(keyLX, entrySha)] }

/-- Manifest declaring a `sha256` digest for the resolved platform. -/
def manSha : Manifest :=
  { xpack := some { binaries := some binsSha } }

/-- C3, witness: the theorem at a concrete manifest with a `sha256` digest
and a rejecting cache store. -/
theorem claim3_witness :
    (downloadBinaries "/pkg" (some manSha) envFail).result
        = .err .downloadFailed .input
    ∧ Effect.rimraf "/pkg/.content"
        ∉ (downloadBinaries "/pkg" (some manSha) envFail).effects := by
  have h := claim3_mismatch_leaves_destination "/pkg" manSha envFail
    _ _ _ _ rfl rfl rfl rfl rfl rfl rfl rfl rfl (Or.inl rfl)
  exact ⟨h.1, h.2 "/pkg/.content"⟩

/-- C5, counterexample: an entry-level `baseUrl` override does NOT prevent
the missing-baseUrl Configuration error: the source tests only the
top-level `xpack.binaries.baseUrl`, so a manifest whose entry carries its
own `baseUrl` still fails when the top-level one is absent. -/
theorem claim5_counterexample :
    downloadBinaries "/pkg" (some manOverrideOnly) envPlain
      = ⟨[], .err .missingBaseUrl .input⟩ := rfl

/-- C5, amended: once a platform entry is resolved, the missing-baseUrl
Configuration error is raised exactly when the top-level
`xpack.binaries.baseUrl` is falsy (absent or empty), regardless of any
entry-level `baseUrl` override. -/
theorem claim5_amended (packagePath : String) (m : Manifest) (env : Env)
    (xp : XpackSection) (b : Binaries)
    (ps : List (String × PlatformEntry)) (entry : PlatformEntry)
    (hxp : m.xpack = some xp) (hb : xp.binaries = some b)
    (hps : b.platforms = some ps)
    (hlook : jsLookup ps env.platformKey = some entry) :
    (downloadBinaries packagePath (some m) env).result
        = .err .missingBaseUrl .input
      ↔ truthy b.baseUrl = false := by
  constructor
  · intro h
    cases htb : truthy b.baseUrl with
    | false => rfl
    | true =>
      exfalso
      cases hsk : entry.skip with
      | true =>
        simp [downloadBinaries, hxp, hb, hps, hlook, htb, hsk] at h
      | false =>
        cases hfn : truthy entry.fileName with
        | false =>
          simp [downloadBinaries, hxp, hb, hps, hlook, htb, hsk, hfn] at h
        | true =>
          cases hmiss : env.cacheInfoBefore with
          | some ipath =>
            simp [downloadBinaries, hxp, hb, hps, hlook, htb, hsk, hfn,
              hmiss, extractPhase] at h
          | none =>
            cases hok : env.downloadOk with
            | false =>
              simp [downloadBinaries, hxp, hb, hps, hlook, htb, hsk, hfn,
                hmiss, hok] at h
            | true =>
              cases hafter : env.cacheInfoAfter with
              | none =>
                simp [downloadBinaries, hxp, hb, hps, hlook, htb, hsk,
                  hfn, hmiss, hok, hafter] at h
              | some ipath =>
                simp [downloadBinaries, hxp, hb, hps, hlook, htb, hsk,
                  hfn, hmiss, hok, hafter, extractPhase, Run.withPre] at h
  · intro h
    simp [downloadBinaries, hxp, hb, hps, hlook, h]

/-- C5, witness: the amended equivalence applied to the concrete manifest
whose entry has a `baseUrl` override but whose top-level `baseUrl` is
absent. -/
theorem claim5_witness :
    (downloadBinaries "/pkg" (some manOverrideOnly) envPlain).result
      = .err .missingBaseUrl .input :=
  (claim5_amended "/pkg" manOverrideOnly envPlain _ _ _ _
    rfl rfl rfl rfl).mpr rfl

/-- C4, counterexample: a non-numeric `xpack.binaries.skip` does NOT make
the extraction strip depth default to 0: `parseInt` never throws, so the
`catch` is dead and the value passed to `decompress` as `strip` is `NaN`,
not `0` (the operation still proceeds; Node's `slice(NaN)` downstream
happens to strip nothing, but the depth used is `NaN`). -/
theorem claim4_counterexample :
    downloadBinaries "/pkg" (some manSkipAbc) envHit
      = ⟨[.rimraf "/pkg/.content",
          .extract "/cache/blob" "/pkg/.content" .nan], .ok 5⟩
    ∧ JsNum.nan ≠ JsNum.int 0 := ⟨rfl, by decide⟩

/-- C4, amended: when `xpack.binaries.skip` is truthy but fails to parse
as an integer, the strip depth handed to extraction is `NaN` (`parseInt`
returns `NaN` rather than throwing), and the operation does not fail: with
a cache hit the run still removes the destination and extracts,
completing successfully. -/
theorem claim4_amended (packagePath : String) (m : Manifest) (env : Env)
    (xp : XpackSection) (b : Binaries)
    (ps : List (String × PlatformEntry)) (entry : PlatformEntry)
    (ipath : String)
    (hxp : m.xpack = some xp) (hb : xp.binaries = some b)
    (hps : b.platforms = some ps)
    (hlook : jsLookup ps env.platformKey = some entry)
    (hbase : truthy b.baseUrl = true) (hskip : entry.skip = false)
    (hfn : truthy entry.fileName = true)
    (hhit : env.cacheInfoBefore = some ipath)
    (hsf : truthy b.skip = true)
    (hnan : parseIntJs (jsOrD b.skip "") = .nan) :
    downloadBinaries packagePath (some m) env
      = ⟨[.rimraf (pathJoin packagePath (jsOrD b.destination ".content")),
          .extract ipath
            (pathJoin packagePath (jsOrD b.destination ".content")) .nan],
         .ok env.extractCount⟩ := by
  simp [downloadBinaries, extractPhase, hxp, hb, hps, hlook, hbase, hskip,
    hfn, hhit, hsf, hnan]

/-- C4, witness: the amended theorem at the concrete manifest with
`skip = "abc"` and a cache hit. -/
theorem claim4_witness :
    downloadBinaries "/pkg" (some manSkipAbc) envHit
      = ⟨[.rimraf (pathJoin "/pkg" ".content"),
          .extract "/cache/blob" (pathJoin "/pkg" ".content") .nan],
         .ok 5⟩ :=
  claim4_amended "/pkg" manSkipAbc envHit _ _ _ _ "/cache/blob"
    rfl rfl rfl rfl rfl rfl rfl rfl rfl (by decide)

/-- C6, counterexample: a malformed hex checksum does NOT fail with a
DecodeError: `Buffer.from("zz", "hex")` decodes to the empty byte string
without throwing, the integrity digest becomes `"sha256-"`, and the
acquisition completes successfully. -/
theorem claim6_counterexample :
    wellFormedHex "zz" = false
    ∧ downloadBinaries "/pkg" (some manZZ) envMissOk
      = ⟨[.networkGet "https://b/x.tar.gz" (some "sha256-"),
          .rimraf "/pkg/.content",
          .extract "/cache/blob" "/pkg/.content" (.int 0)], .ok 3⟩ :=
  ⟨rfl, rfl⟩

/-- C6, amended: the hex-to-integrity encoding step never fails: for EVERY
declared `sha256` string (well-formed hex or not), the pipeline proceeds
identically, passing `integrityEncode` of the declared string — the
base64 of the prefix that decodes as hex pairs — to the cache store, and
(with a successful download) completes extraction; no DecodeError exists
in the source. -/
theorem claim6_amended (packagePath : String) (m : Manifest) (env : Env)
    (xp : XpackSection) (b : Binaries)
    (ps : List (String × PlatformEntry)) (entry : PlatformEntry)
    (hex ipath : String)
    (hxp : m.xpack = some xp) (hb : xp.binaries = some b)
    (hps : b.platforms = some ps)
    (hlook : jsLookup ps env.platformKey = some entry)
    (hbase : truthy b.baseUrl = true) (hskip : entry.skip = false)
    (hfn : truthy entry.fileName = true)
    (hsha : entry.sha256 = some hex) (hhex : hex ≠ "")
    (hmiss : env.cacheInfoBefore = none) (hok : env.downloadOk = true)
    (hafter : env.cacheInfoAfter = some ipath) :
    downloadBinaries packagePath (some m) env
      = ⟨[.networkGet
            ((if endsWithChar (jsOrD entry.baseUrl (jsOrD b.baseUrl "")) '/'
              then jsOrD entry.baseUrl (jsOrD b.baseUrl "")
              else jsOrD entry.baseUrl (jsOrD b.baseUrl "") ++ "/")
              ++ jsOrD entry.fileName "")
            (some (integrityEncode "sha256" hex)),
          .rimraf (pathJoin packagePath (jsOrD b.destination ".content")),
          .extract ipath
            (pathJoin packagePath (jsOrD b.destination ".content"))
            (if truthy b.skip then parseIntJs (jsOrD b.skip "")
             else .int 0)],
         .ok env.extractCount⟩ := by
  have h1 : truthy entry.sha256 = true := by
    rw [hsha]; exact truthy_some hhex
  have h2 : jsOrD entry.sha256 "" = hex :=
    (jsOrD_of_truthy hsha hhex "").2
  simp [downloadBinaries, extractPhase, Run.withPre, hxp, hb, hps, hlook,
    hbase, hskip, hfn, h1, h2, hmiss, hok, hafter]

/-- C6, witness: the amended theorem at the concrete manifest declaring
the malformed hex digest `"zz"`. -/
theorem claim6_witness :
    downloadBinaries "/pkg" (some manZZ) envMissOk
      = ⟨[.networkGet "https://b/x.tar.gz"
            (some (integrityEncode "sha256" "zz")),
          .rimraf (pathJoin "/pkg" ".content"),
          .extract "/cache/blob" (pathJoin "/pkg" ".content") (.int 0)],
         .ok 3⟩ := by
  have h := claim6_amended "/pkg" manZZ envMissOk _ _ _ _ "zz" "/cache/blob"
    rfl rfl rfl rfl rfl rfl rfl rfl (by decide) rfl rfl rfl
  exact h

/-- C9, counterexample: "the entry-level baseUrl when present" is not what
the source implements — the source uses JavaScript `||`, so a PRESENT but
empty entry-level `baseUrl` is ignored and the top-level one is used: the
URL is `"https://fallback.com/x.tar.gz"`, not the `"/x.tar.gz"` the claim's
description would produce from the empty effective base. -/
theorem claim9_counterexample :
    (downloadBinaries "/pkg" (some manEmptyBase) envMissOk).effects.head?
        = some (.networkGet "https://fallback.com/x.tar.gz" none)
    ∧ ("https://fallback.com/x.tar.gz" : String) ≠ "/" ++ "x.tar.gz" :=
  ⟨rfl, by decide⟩

/-- C9, amended: the effective base is the entry-level `baseUrl` when
TRUTHY (present and non-empty), otherwise the top-level
`xpack.binaries.baseUrl`; a `/` is appended when the effective base does
not already end in one, and the entry's `fileName` is appended. -/
theorem claim9_amended (packagePath : String) (m : Manifest) (env : Env)
    (xp : XpackSection) (b : Binaries)
    (ps : List (String × PlatformEntry)) (entry : PlatformEntry)
    (hxp : m.xpack = some xp) (hb : xp.binaries = some b)
    (hps : b.platforms = some ps)
    (hlook : jsLookup ps env.platformKey = some entry)
    (hbase : truthy b.baseUrl = true) (hskip : entry.skip = false)
    (hfn : truthy entry.fileName = true)
    (hmiss : env.cacheInfoBefore = none) :
    (∀ eb, entry.baseUrl = some eb → eb ≠ "" →
      (downloadBinaries packagePath (some m) env).effects.head?
        = some (.networkGet
            ((if endsWithChar eb '/' then eb else eb ++ "/")
              ++ jsOrD entry.fileName "")
            (if truthy entry.sha256 then
              some (integrityEncode "sha256" (jsOrD entry.sha256 ""))
             else if truthy entry.sha512 then
              some (integrityEncode "sha512" (jsOrD entry.sha512 ""))
             else none)))
    ∧ (truthy entry.baseUrl = false → ∀ tb, b.baseUrl = some tb →
      (downloadBinaries packagePath (some m) env).effects.head?
        = some (.networkGet
            ((if endsWithChar tb '/' then tb else tb ++ "/")
              ++ jsOrD entry.fileName "")
            (if truthy entry.sha256 then
              some (integrityEncode "sha256" (jsOrD entry.sha256 ""))
             else if truthy entry.sha512 then
              some (integrityEncode "sha512" (jsOrD entry.sha512 ""))
             else none))) := by
  constructor
  · intro eb heb hebne
    have hjs : jsOrD entry.baseUrl (jsOrD b.baseUrl "") = eb :=
      (jsOrD_of_truthy heb hebne _).2
    cases hok : env.downloadOk with
    | false =>
      simp [downloadBinaries, hxp, hb, hps, hlook, hbase, hskip, hfn,
        hmiss, hok, hjs]
    | true =>
      cases hafter : env.cacheInfoAfter with
      | none =>
        simp [downloadBinaries, hxp, hb, hps, hlook, hbase, hskip, hfn,
          hmiss, hok, hafter, hjs]
      | some ipath =>
        simp [downloadBinaries, extractPhase, Run.withPre, hxp, hb, hps,
          hlook, hbase, hskip, hfn, hmiss, hok, hafter, hjs]
  · intro hfalsy tb htb
    have htbne : tb ≠ "" := by
      intro hcon
      rw [htb, hcon] at hbase
      simp [truthy] at hbase
    have hjs1 : jsOrD b.baseUrl "" = tb := (jsOrD_of_truthy htb htbne "").2
    have hjs : jsOrD entry.baseUrl (jsOrD b.baseUrl "") = tb := by
      rw [jsOrD_of_falsy hfalsy, hjs1]
    cases hok : env.downloadOk with
    | false =>
      simp [downloadBinaries, hxp, hb, hps, hlook, hbase, hskip, hfn,
        hmiss, hok, hjs]
    | true =>
      cases hafter : env.cacheInfoAfter with
      | none =>
        simp [downloadBinaries, hxp, hb, hps, hlook, hbase, hskip, hfn,
          hmiss, hok, hafter, hjs]
      | some ipath =>
        simp [downloadBinaries, extractPhase, Run.withPre, hxp, hb, hps,
          hlook, hbase, hskip, hfn, hmiss, hok, hafter, hjs]

/-- C9, witness: the amended theorem at the claim's own example — entry
base `"https://example.com"` wins over `"https://fallback.com/"` and gets
its missing slash, yielding `"https://example.com/x.tar.gz"`. -/
theorem claim9_witness :
    (downloadBinaries "/pkg" (some manEx) envMissOk).effects.head?
      = some (.networkGet "https://example.com/x.tar.gz" none) := by
  have h := (claim9_amended "/pkg" manEx envMissOk _ _ _ _
    rfl rfl rfl rfl rfl rfl rfl rfl).1 "https://example.com" rfl (by decide)
  exact h

/-- C7, counterexample: the constructor does not split on the FIRST `@`
only.  On `"a@1@2"` the code's split-on-every-`@` takes segment 1, giving
version `"1"`, while the claim's split-on-first-`@` description gives
version `"1@2"`. -/
theorem claim7_counterexample :
    ManifestId.ofId "a@1@2".data "9".data
      = some ⟨none, "a".data, "1".data⟩
    ∧ manifestIdSpec "a@1@2".data "9".data
      = some ⟨none, "a".data, "1@2".data⟩
    ∧ ("1".data : List Char) ≠ "1@2".data := by
  refine ⟨rfl, rfl, by decide⟩

/-- C7, amended: the constructor splits on EVERY `/` and `@` and keeps
segments 0 and 1 (content after a second separator is dropped), so the
claim's first-split description is correct exactly when the scope part
contains no further `/` and the name/version region contains no further
`/` or `@`: under those conditions, a scoped id parses to scope, name and
version (or the fallback when the version part is empty or missing), and
an unscoped id to name and version (or the fallback). -/
theorem claim7_amended (s n v fb : List Char) (hs : '/' ∉ s)
    (hn1 : '/' ∉ n) (hn2 : '@' ∉ n) (hv1 : '/' ∉ v) (hv2 : '@' ∉ v)
    (hn0 : n ≠ []) :
    (ManifestId.ofId ('@' :: s ++ '/' :: (n ++ '@' :: v)) fb
      = some ⟨some ('@' :: s), n, versionOr (some v) fb⟩)
    ∧ (ManifestId.ofId ('@' :: s ++ '/' :: n) fb
      = some ⟨some ('@' :: s), n, fb⟩)
    ∧ (ManifestId.ofId (n ++ '@' :: v) fb
      = some ⟨none, n, versionOr (some v) fb⟩)
    ∧ (ManifestId.ofId n fb = some ⟨none, n, fb⟩) :=
  ⟨ofId_scoped fb hs hn1 hn2 hv1 hv2, ofId_scoped_nov fb hs hn1 hn2,
   ofId_unscoped fb hn0 hn2 hv2, ofId_unscoped_nov fb hn0 hn2⟩

/-- C7, witness: the amended theorem applied to `"@s/n@1.2.3"` with
fallback `"9"`. -/
theorem claim7_witness :
    ManifestId.ofId "@s/n@1.2.3".data "9".data
      = some ⟨some "@s".data, "n".data, "1.2.3".data⟩ := by
  have h := claim7_amended "s".data "n".data "1.2.3".data "9".data
    (by decide) (by decide) (by decide) (by decide) (by decide) (by decide)
  exact h.1

/-- C8: round trip.  For descriptors `"@scope/name@version"` and
`"name@version"` with non-empty parts containing no further `@` or `/`,
`getFullName` of the parsed `ManifestId` reassembles the original
descriptor. -/
theorem claim8_roundtrip (s n v fb : List Char) (hs0 : s ≠ [])
    (hn0 : n ≠ []) (hv0 : v ≠ []) (hs1 : '/' ∉ s) (hs2 : '@' ∉ s)
    (hn1 : '/' ∉ n) (hn2 : '@' ∉ n) (hv1 : '/' ∉ v) (hv2 : '@' ∉ v) :
    (ManifestId.ofId ('@' :: s ++ '/' :: (n ++ '@' :: v)) fb).map
        ManifestId.getFullName
      = some ('@' :: s ++ '/' :: (n ++ '@' :: v))
    ∧ (ManifestId.ofId (n ++ '@' :: v) fb).map ManifestId.getFullName
      = some (n ++ '@' :: v) := by
  constructor
  · rw [ofId_scoped fb hs1 hn1 hn2 hv1 hv2]
    simp [ManifestId.getFullName, versionOr, hv0]
  · rw [ofId_unscoped fb hn0 hn2 hv2]
    simp [ManifestId.getFullName, versionOr, hv0]

/-- C8, witness: the round trip evaluated at `"@scope/name@1.2.3"` and
`"name@1.2.3"`. -/
theorem claim8_witness :
    (ManifestId.ofId "@scope/name@1.2.3".data "9".data).map
        ManifestId.getFullName = some "@scope/name@1.2.3".data
    ∧ (ManifestId.ofId "name@1.2.3".data "9".data).map
        ManifestId.getFullName = some "name@1.2.3".data := by
  have h := claim8_roundtrip "scope".data "name".data "1.2.3".data "9".data
    (by decide) (by decide) (by decide) (by decide) (by decide) (by decide)
    (by decide) (by decide) (by decide)
  exact h

/-- C10: a descriptor starting with `@` but containing no `/` makes the
constructor fail (JavaScript `TypeError`: `arr[1]` is `undefined`), so no
parsed result is produced. -/
theorem claim10_scoped_needs_slash (s fb : List Char) (h : '/' ∉ s) :
    ManifestId.ofId ('@' :: s) fb = none := by
  rw [ManifestId.ofId, if_pos (by simp)]
  rw [jsSplit_eq_single
    (by simp only [List.mem_cons, not_or]; exact ⟨by decide, h⟩)]

/-- C10, witness: the constructor fails on `"@foo"`. -/
theorem claim10_witness : ManifestId.ofId "@foo".data "1.0.0".data = none := by
  have h := claim10_scoped_needs_slash "foo".data "1.0.0".data (by decide)
  exact h

end Xpm
